import Mathlib

set_option maxRecDepth 4096

/-!
# Verification of the bitmap bit-operation library

Shallow embedding of `src/src/lib.rs`.  A bitmap (`&[u8]` / `&mut [u8]` in the
source) is a `List Nat` of bytes, each below 256.  Rust's panicking slice
indexing `bitmap[e]` is modelled by the `Option`-valued lookup `bitmap[e]?`:
`none` is the fatal bounds error.  The `u8` complement `!x` is modelled as
`x ^^^ 255`, and the in-place updates `|=` / `&=` as `List.set` returning the
updated buffer.  Machine shifts `<<`, `>>` and the bitwise `&`, `|` on `usize`
indices are the corresponding `Nat` operations (no overflow can occur: shift
amounts are below 8 and masks fit in a byte).
-/

namespace BitmapBench

/-- `const BIT_MASK: [u8; 8]` from the source. -/
def BIT_MASK : List Nat := [1, 2, 4, 8, 16, 32, 64, 128]

/-- `const UNSET_BIT_MASK: [u8; 8]` from the source. -/
def UNSET_BIT_MASK : List Nat :=
  [255 - 1, 255 - 2, 255 - 4, 255 - 8, 255 - 16, 255 - 32, 255 - 64, 255 - 128]

/-- `static BIT_MASK_STATIC: [u8; 8] = BIT_MASK`. -/
def BIT_MASK_STATIC : List Nat := BIT_MASK

/-- `static UNSET_BIT_MASK_STATIC: [u8; 8] = UNSET_BIT_MASK`. -/
def UNSET_BIT_MASK_STATIC : List Nat := UNSET_BIT_MASK

/-- `bit_test_naive`: `bitmap[idx / 8] & (1 << (idx % 8)) != 0`. -/
def bit_test_naive (bitmap : List Nat) (idx : Nat) : Option Bool :=
  (bitmap[idx / 8]?).map fun b => b &&& (1 <<< (idx % 8)) != 0

/-- `bit_set_naive`: `bitmap[idx / 8] |= 1 << (idx % 8)`. -/
def bit_set_naive (bitmap : List Nat) (idx : Nat) : Option (List Nat) :=
  (bitmap[idx / 8]?).map fun b => bitmap.set (idx / 8) (b ||| (1 <<< (idx % 8)))

/-- `bit_clear_naive`: `bitmap[idx / 8] &= !(1 << (idx % 8))`. -/
def bit_clear_naive (bitmap : List Nat) (idx : Nat) : Option (List Nat) :=
  (bitmap[idx / 8]?).map fun b => bitmap.set (idx / 8) (b &&& ((1 <<< (idx % 8)) ^^^ 255))

/-- `bit_test_const_table`: `bitmap[idx >> 3] & BIT_MASK[idx & 7] != 0`. -/
def bit_test_const_table (bitmap : List Nat) (idx : Nat) : Option Bool :=
  (bitmap[idx >>> 3]?).bind fun b =>
    (BIT_MASK[idx &&& 7]?).map fun mask => b &&& mask != 0

/-- `bit_set_const_table`: `bitmap[idx >> 3] |= BIT_MASK[idx & 7]`. -/
def bit_set_const_table (bitmap : List Nat) (idx : Nat) : Option (List Nat) :=
  (bitmap[idx >>> 3]?).bind fun b =>
    (BIT_MASK[idx &&& 7]?).map fun mask => bitmap.set (idx >>> 3) (b ||| mask)

/-- `bit_clear_const_table`: `bitmap[idx >> 3] &= UNSET_BIT_MASK[idx & 7]`. -/
def bit_clear_const_table (bitmap : List Nat) (idx : Nat) : Option (List Nat) :=
  (bitmap[idx >>> 3]?).bind fun b =>
    (UNSET_BIT_MASK[idx &&& 7]?).map fun mask => bitmap.set (idx >>> 3) (b &&& mask)

/-- `bit_test_static_table`: `bitmap[idx >> 3] & BIT_MASK_STATIC[idx & 7] != 0`. -/
def bit_test_static_table (bitmap : List Nat) (idx : Nat) : Option Bool :=
  (bitmap[idx >>> 3]?).bind fun b =>
    (BIT_MASK_STATIC[idx &&& 7]?).map fun mask => b &&& mask != 0

/-- `bit_set_static_table`: `bitmap[idx >> 3] |= BIT_MASK_STATIC[idx & 7]`. -/
def bit_set_static_table (bitmap : List Nat) (idx : Nat) : Option (List Nat) :=
  (bitmap[idx >>> 3]?).bind fun b =>
    (BIT_MASK_STATIC[idx &&& 7]?).map fun mask => bitmap.set (idx >>> 3) (b ||| mask)

/-- `bit_clear_static_table`: `bitmap[idx >> 3] &= UNSET_BIT_MASK_STATIC[idx & 7]`. -/
def bit_clear_static_table (bitmap : List Nat) (idx : Nat) : Option (List Nat) :=
  (bitmap[idx >>> 3]?).bind fun b =>
    (UNSET_BIT_MASK_STATIC[idx &&& 7]?).map fun mask => bitmap.set (idx >>> 3) (b &&& mask)

/-! ## Arithmetic bridging lemmas -/

lemma and_seven (i : Nat) : i &&& 7 = i % 8 := Nat.and_pow_two_sub_one_eq_mod i 3

lemma shiftRight_three (i : Nat) : i >>> 3 = i / 8 := by
  rw [Nat.shiftRight_eq_div_pow]

lemma mod8_lt (i : Nat) : i % 8 < 8 := Nat.mod_lt i (by norm_num)

lemma div8_lt_iff (i L : Nat) : i / 8 < L ↔ i < 8 * L := by omega

lemma BIT_MASK_lookup : ∀ k, k < 8 → BIT_MASK[k]? = some (1 <<< k) := by decide

lemma UNSET_BIT_MASK_lookup :
    ∀ k, k < 8 → UNSET_BIT_MASK[k]? = some ((1 <<< k) ^^^ 255) := by decide

lemma isSome_map {α β : Type} (f : α → β) (o : Option α) :
    (o.map f).isSome = o.isSome := by
  cases o <;> rfl

lemma getElem?_isSome_iff (l : List Nat) (n : Nat) : l[n]?.isSome ↔ n < l.length := by
  constructor
  · intro hs
    by_contra hn
    rw [List.getElem?_eq_none (Nat.le_of_not_lt hn)] at hs
    exact absurd hs (by simp)
  · intro hlt
    rw [List.getElem?_eq_getElem hlt]
    simp

lemma exists_byte (B : List Nat) (i : Nat) (h : i < 8 * B.length) :
    ∃ b, B[i / 8]? = some b := by
  have hlt : i / 8 < B.length := (div8_lt_iff i B.length).mpr h
  exact ⟨B[i / 8], List.getElem?_eq_getElem hlt⟩

/-! ## The table variants compute the same function as the naive variant -/

lemma bit_test_const_table_eq (B : List Nat) (i : Nat) :
    bit_test_const_table B i = bit_test_naive B i := by
  have hm : BIT_MASK[i &&& 7]? = some (1 <<< (i % 8)) := by
    rw [and_seven]
    exact BIT_MASK_lookup _ (mod8_lt i)
  unfold bit_test_const_table bit_test_naive
  rw [shiftRight_three]
  cases hB : B[i / 8]? <;> simp [hm]

lemma bit_set_const_table_eq (B : List Nat) (i : Nat) :
    bit_set_const_table B i = bit_set_naive B i := by
  have hm : BIT_MASK[i &&& 7]? = some (1 <<< (i % 8)) := by
    rw [and_seven]
    exact BIT_MASK_lookup _ (mod8_lt i)
  unfold bit_set_const_table bit_set_naive
  rw [shiftRight_three]
  cases hB : B[i / 8]? <;> simp [hm]

lemma bit_clear_const_table_eq (B : List Nat) (i : Nat) :
    bit_clear_const_table B i = bit_clear_naive B i := by
  have hm : UNSET_BIT_MASK[i &&& 7]? = some ((1 <<< (i % 8)) ^^^ 255) := by
    rw [and_seven]
    exact UNSET_BIT_MASK_lookup _ (mod8_lt i)
  unfold bit_clear_const_table bit_clear_naive
  rw [shiftRight_three]
  cases hB : B[i / 8]? <;> simp [hm]

lemma bit_test_static_table_eq (B : List Nat) (i : Nat) :
    bit_test_static_table B i = bit_test_const_table B i := rfl

lemma bit_set_static_table_eq (B : List Nat) (i : Nat) :
    bit_set_static_table B i = bit_set_const_table B i := rfl

lemma bit_clear_static_table_eq (B : List Nat) (i : Nat) :
    bit_clear_static_table B i = bit_clear_const_table B i := rfl

/-! ## Byte-level bit lemmas -/

lemma and_two_pow_bne_zero (b k : Nat) : (b &&& (1 <<< k) != 0) = b.testBit k := by
  rw [Nat.shiftLeft_eq, one_mul, Nat.and_two_pow]
  cases h : b.testBit k <;> simp [Nat.pos_iff_ne_zero, Nat.pos_pow_of_pos]

lemma testBit_or_shift_self (b k : Nat) : (b ||| (1 <<< k)).testBit k = true := by
  rw [Nat.shiftLeft_eq, one_mul, Nat.testBit_or, Nat.testBit_two_pow]
  simp

lemma testBit_or_shift_ne (b k m : Nat) (hm : m ≠ k) :
    (b ||| (1 <<< k)).testBit m = b.testBit m := by
  rw [Nat.shiftLeft_eq, one_mul, Nat.testBit_or, Nat.testBit_two_pow]
  simp [Ne.symm hm]

lemma testBit_255 (m : Nat) : (255 : Nat).testBit m = decide (m < 8) := by
  have h : (255 : Nat) = 2 ^ 8 - 1 := by norm_num
  rw [h, Nat.testBit_two_pow_sub_one]

lemma testBit_clear_self (b k : Nat) (hk : k < 8) :
    (b &&& ((1 <<< k) ^^^ 255)).testBit k = false := by
  rw [Nat.shiftLeft_eq, one_mul, Nat.testBit_and, Nat.testBit_xor, Nat.testBit_two_pow,
    testBit_255]
  simp [hk]

lemma testBit_ge_eight (b m : Nat) (hb : b < 256) (hm : 8 ≤ m) : b.testBit m = false := by
  have h256 : (256 : Nat) ≤ 2 ^ m := by
    calc (256 : Nat) = 2 ^ 8 := by norm_num
      _ ≤ 2 ^ m := Nat.pow_le_pow_right (by norm_num) hm
  exact Nat.testBit_lt_two_pow (lt_of_lt_of_le hb h256)

lemma testBit_clear_ne (b k m : Nat) (hb : b < 256) (hm : m ≠ k) :
    (b &&& ((1 <<< k) ^^^ 255)).testBit m = b.testBit m := by
  rw [Nat.shiftLeft_eq, one_mul, Nat.testBit_and, Nat.testBit_xor, Nat.testBit_two_pow,
    testBit_255]
  by_cases h8 : m < 8
  · simp [h8, Ne.symm hm]
  · rw [testBit_ge_eight b m hb (Nat.le_of_not_lt h8)]
    simp

/-! ## Behaviour of the naive operations on the addressed byte -/

lemma bit_test_naive_eq (B : List Nat) (i b : Nat) (hb : B[i / 8]? = some b) :
    bit_test_naive B i = some (b &&& (1 <<< (i % 8)) != 0) := by
  unfold bit_test_naive
  rw [hb]
  rfl

lemma bit_set_naive_eq (B : List Nat) (i b : Nat) (hb : B[i / 8]? = some b) :
    bit_set_naive B i = some (B.set (i / 8) (b ||| (1 <<< (i % 8)))) := by
  unfold bit_set_naive
  rw [hb]
  rfl

lemma bit_clear_naive_eq (B : List Nat) (i b : Nat) (hb : B[i / 8]? = some b) :
    bit_clear_naive B i = some (B.set (i / 8) (b &&& ((1 <<< (i % 8)) ^^^ 255))) := by
  unfold bit_clear_naive
  rw [hb]
  rfl

/-! ## Locality of mutation -/

/-- A mutation `op` at bit index `i` is local: it succeeds, leaves every byte
other than byte `i / 8` unchanged, and within byte `i / 8` leaves every bit
other than bit `i % 8` unchanged. -/
def locality_ok (op : List Nat → Nat → Option (List Nat)) (B : List Nat) (i : Nat) : Prop :=
  ∃ B2, op B i = some B2 ∧
    (∀ j, j ≠ i / 8 → B2[j]? = B[j]?) ∧
    ∀ b b2, B[i / 8]? = some b → B2[i / 8]? = some b2 →
      ∀ m, m ≠ i % 8 → b2.testBit m = b.testBit m

lemma locality_ok_congr (op1 op2 : List Nat → Nat → Option (List Nat)) (B : List Nat)
    (i : Nat) (he : op1 B i = op2 B i) (h2 : locality_ok op2 B i) : locality_ok op1 B i := by
  unfold locality_ok at h2 ⊢
  rw [he]
  exact h2

lemma locality_set_naive (B : List Nat) (i : Nat) (h : i < 8 * B.length) :
    locality_ok bit_set_naive B i := by
  obtain ⟨b, hb⟩ := exists_byte B i h
  have hlt : i / 8 < B.length := (div8_lt_iff i B.length).mpr h
  refine ⟨B.set (i / 8) (b ||| (1 <<< (i % 8))), bit_set_naive_eq B i b hb, ?_, ?_⟩
  · intro j hj
    exact List.getElem?_set_ne (Ne.symm hj)
  · intro b0 b2 hb0 hb2 m hm
    rw [hb] at hb0
    injection hb0 with hb0e
    rw [List.getElem?_set_self hlt] at hb2
    injection hb2 with hb2e
    rw [← hb0e, ← hb2e]
    exact testBit_or_shift_ne b (i % 8) m hm

lemma locality_clear_naive (B : List Nat) (i : Nat) (hv : ∀ x ∈ B, x < 256)
    (h : i < 8 * B.length) : locality_ok bit_clear_naive B i := by
  obtain ⟨b, hb⟩ := exists_byte B i h
  have hlt : i / 8 < B.length := (div8_lt_iff i B.length).mpr h
  refine ⟨B.set (i / 8) (b &&& ((1 <<< (i % 8)) ^^^ 255)), bit_clear_naive_eq B i b hb, ?_, ?_⟩
  · intro j hj
    exact List.getElem?_set_ne (Ne.symm hj)
  · intro b0 b2 hb0 hb2 m hm
    rw [hb] at hb0
    injection hb0 with hb0e
    rw [List.getElem?_set_self hlt] at hb2
    injection hb2 with hb2e
    rw [← hb0e, ← hb2e]
    exact testBit_clear_ne b (i % 8) m (hv b (List.getElem?_mem hb)) hm

/-! ## Claim theorems -/

/-- Claim C1: for every bitmap `B` and every index `i < 8 * length B`, the three
test variants agree: `bit_test_naive B i = bit_test_const_table B i =
bit_test_static_table B i`. -/
theorem test_variants_agree (B : List Nat) (i : Nat) (h : i < 8 * B.length) :
    bit_test_naive B i = bit_test_const_table B i ∧
      bit_test_const_table B i = bit_test_static_table B i :=
  ⟨(bit_test_const_table_eq B i).symm, (bit_test_static_table_eq B i).symm⟩

/-- Witness for C1 at the bitmap `[170]` and index 3. -/
theorem test_variants_agree_witness :
    3 < 8 * ([170] : List Nat).length ∧
      (bit_test_naive [170] 3 = bit_test_const_table [170] 3 ∧
        bit_test_const_table [170] 3 = bit_test_static_table [170] 3) :=
  ⟨by decide, test_variants_agree [170] 3 (by decide)⟩

/-- Claim C2: for every bitmap `B`, index `i < 8 * length B` and operation kind
`op ∈ \x7bset, clear\x7d`, the naive, const-table and static-table variants of `op`
produce byte-for-byte identical buffers from independent copies of `B`. -/
theorem mutation_variants_agree (B : List Nat) (i : Nat) (h : i < 8 * B.length) :
    (bit_set_naive B i = bit_set_const_table B i ∧
      bit_set_const_table B i = bit_set_static_table B i) ∧
    (bit_clear_naive B i = bit_clear_const_table B i ∧
      bit_clear_const_table B i = bit_clear_static_table B i) :=
  ⟨⟨(bit_set_const_table_eq B i).symm, (bit_set_static_table_eq B i).symm⟩,
    ⟨(bit_clear_const_table_eq B i).symm, (bit_clear_static_table_eq B i).symm⟩⟩

/-- Witness for C2 at the bitmap `[170, 7]` and index 9. -/
theorem mutation_variants_agree_witness :
    9 < 8 * ([170, 7] : List Nat).length ∧
      ((bit_set_naive [170, 7] 9 = bit_set_const_table [170, 7] 9 ∧
        bit_set_const_table [170, 7] 9 = bit_set_static_table [170, 7] 9) ∧
      (bit_clear_naive [170, 7] 9 = bit_clear_const_table [170, 7] 9 ∧
        bit_clear_const_table [170, 7] 9 = bit_clear_static_table [170, 7] 9)) :=
  ⟨by decide, mutation_variants_agree [170, 7] 9 (by decide)⟩

/-- Claim C6: each of the nine operations succeeds exactly on the indices
`i < 8 * length B`; any larger index is rejected with the fatal bounds error
(modelled by `none`), never truncated or wrapped. -/
theorem bounds_check (B : List Nat) (i : Nat) :
    ((bit_test_naive B i).isSome ↔ i < 8 * B.length) ∧
    ((bit_set_naive B i).isSome ↔ i < 8 * B.length) ∧
    ((bit_clear_naive B i).isSome ↔ i < 8 * B.length) ∧
    ((bit_test_const_table B i).isSome ↔ i < 8 * B.length) ∧
    ((bit_set_const_table B i).isSome ↔ i < 8 * B.length) ∧
    ((bit_clear_const_table B i).isSome ↔ i < 8 * B.length) ∧
    ((bit_test_static_table B i).isSome ↔ i < 8 * B.length) ∧
    ((bit_set_static_table B i).isSome ↔ i < 8 * B.length) ∧
    ((bit_clear_static_table B i).isSome ↔ i < 8 * B.length) := by
  have htest : (bit_test_naive B i).isSome ↔ i < 8 * B.length := by
    unfold bit_test_naive
    rw [isSome_map, getElem?_isSome_iff, div8_lt_iff]
  have hset : (bit_set_naive B i).isSome ↔ i < 8 * B.length := by
    unfold bit_set_naive
    rw [isSome_map, getElem?_isSome_iff, div8_lt_iff]
  have hclear : (bit_clear_naive B i).isSome ↔ i < 8 * B.length := by
    unfold bit_clear_naive
    rw [isSome_map, getElem?_isSome_iff, div8_lt_iff]
  refine ⟨htest, hset, hclear, ?_, ?_, ?_, ?_, ?_, ?_⟩ <;>
    simp only [bit_test_const_table_eq, bit_set_const_table_eq, bit_clear_const_table_eq,
      bit_test_static_table_eq, bit_set_static_table_eq, bit_clear_static_table_eq,
      htest, hset, hclear]

/-- Claim C7: for every 3-bit sub-index `k < 8`, both mask tables hold the
single-set-bit value `2 ^ k` and both unset tables hold its byte complement
`255 - 2 ^ k`. -/
theorem mask_tables (k : Nat) (h : k < 8) :
    BIT_MASK[k]? = some (2 ^ k) ∧ BIT_MASK_STATIC[k]? = some (2 ^ k) ∧
      UNSET_BIT_MASK[k]? = some (255 - 2 ^ k) ∧
      UNSET_BIT_MASK_STATIC[k]? = some (255 - 2 ^ k) := by
  interval_cases k <;> decide

/-- Witness for C7 at sub-index 3. -/
theorem mask_tables_witness :
    3 < 8 ∧
      (BIT_MASK[3]? = some (2 ^ 3) ∧ BIT_MASK_STATIC[3]? = some (2 ^ 3) ∧
        UNSET_BIT_MASK[3]? = some (255 - 2 ^ 3) ∧
        UNSET_BIT_MASK_STATIC[3]? = some (255 - 2 ^ 3)) :=
  ⟨by decide, mask_tables 3 (by decide)⟩

/-- Claim C8: on the 1-byte bitmap `[0]`, setting bit 3 yields `[8]`, testing
bit 3 of `[8]` yields `true`, and clearing bit 3 of `[8]` yields `[0]` again,
in every variant. -/
theorem scenario_set_bit3 :
    (bit_set_naive [0] 3 = some [8] ∧ bit_test_naive [8] 3 = some true ∧
      bit_clear_naive [8] 3 = some [0]) ∧
    (bit_set_const_table [0] 3 = some [8] ∧ bit_test_const_table [8] 3 = some true ∧
      bit_clear_const_table [8] 3 = some [0]) ∧
    (bit_set_static_table [0] 3 = some [8] ∧ bit_test_static_table [8] 3 = some true ∧
      bit_clear_static_table [8] 3 = some [0]) := by
  decide

/-- Claim C9: on the 1-byte bitmap `[255]`, clearing bit 0 yields `[254]`; on
`[254]` bit 0 tests `false` and bits 1 through 7 test `true`, in every
variant. -/
theorem scenario_clear_bit0 :
    (bit_clear_naive [255] 0 = some [254] ∧ bit_test_naive [254] 0 = some false ∧
      bit_test_naive [254] 1 = some true ∧ bit_test_naive [254] 2 = some true ∧
      bit_test_naive [254] 3 = some true ∧ bit_test_naive [254] 4 = some true ∧
      bit_test_naive [254] 5 = some true ∧ bit_test_naive [254] 6 = some true ∧
      bit_test_naive [254] 7 = some true) ∧
    (bit_clear_const_table [255] 0 = some [254] ∧
      bit_test_const_table [254] 0 = some false ∧
      bit_test_const_table [254] 1 = some true ∧ bit_test_const_table [254] 2 = some true ∧
      bit_test_const_table [254] 3 = some true ∧ bit_test_const_table [254] 4 = some true ∧
      bit_test_const_table [254] 5 = some true ∧ bit_test_const_table [254] 6 = some true ∧
      bit_test_const_table [254] 7 = some true) ∧
    (bit_clear_static_table [255] 0 = some [254] ∧
      bit_test_static_table [254] 0 = some false ∧
      bit_test_static_table [254] 1 = some true ∧ bit_test_static_table [254] 2 = some true ∧
      bit_test_static_table [254] 3 = some true ∧ bit_test_static_table [254] 4 = some true ∧
      bit_test_static_table [254] 5 = some true ∧ bit_test_static_table [254] 6 = some true ∧
      bit_test_static_table [254] 7 = some true) := by
  decide

/-- Claim C10: each of the six mutating operations, applied at a valid index,
returns a buffer with exactly as many bytes as the input buffer. -/
theorem mutation_preserves_length (B : List Nat) (i : Nat) (h : i < 8 * B.length) :
    (bit_set_naive B i).map List.length = some B.length ∧
    (bit_clear_naive B i).map List.length = some B.length ∧
    (bit_set_const_table B i).map List.length = some B.length ∧
    (bit_clear_const_table B i).map List.length = some B.length ∧
    (bit_set_static_table B i).map List.length = some B.length ∧
    (bit_clear_static_table B i).map List.length = some B.length := by
  obtain ⟨b, hb⟩ := exists_byte B i h
  simp only [bit_set_const_table_eq, bit_clear_const_table_eq, bit_set_static_table_eq,
    bit_clear_static_table_eq, bit_set_naive_eq B i b hb, bit_clear_naive_eq B i b hb]
  simp [List.length_set]

/-- Witness for C10 at the bitmap `[170, 7]` and index 9. -/
theorem mutation_preserves_length_witness :
    9 < 8 * ([170, 7] : List Nat).length ∧
      ((bit_set_naive [170, 7] 9).map List.length = some ([170, 7] : List Nat).length ∧
      (bit_clear_naive [170, 7] 9).map List.length = some ([170, 7] : List Nat).length ∧
      (bit_set_const_table [170, 7] 9).map List.length = some ([170, 7] : List Nat).length ∧
      (bit_clear_const_table [170, 7] 9).map List.length = some ([170, 7] : List Nat).length ∧
      (bit_set_static_table [170, 7] 9).map List.length = some ([170, 7] : List Nat).length ∧
      (bit_clear_static_table [170, 7] 9).map List.length = some ([170, 7] : List Nat).length) :=
  ⟨by decide, mutation_preserves_length [170, 7] 9 (by decide)⟩

/-- Claim C3: every mutating variant at a valid index `i` of a byte-valued
bitmap leaves every byte other than byte `i / 8` unchanged, and within byte
`i / 8` leaves every bit other than bit `i % 8` unchanged. -/
theorem mutation_locality (B : List Nat) (i : Nat) (hv : ∀ x ∈ B, x < 256)
    (h : i < 8 * B.length) :
    (locality_ok bit_set_naive B i ∧ locality_ok bit_clear_naive B i) ∧
    (locality_ok bit_set_const_table B i ∧ locality_ok bit_clear_const_table B i) ∧
    (locality_ok bit_set_static_table B i ∧ locality_ok bit_clear_static_table B i) := by
  have hs := locality_set_naive B i h
  have hc := locality_clear_naive B i hv h
  exact ⟨⟨hs, hc⟩,
    ⟨locality_ok_congr _ _ B i (bit_set_const_table_eq B i) hs,
      locality_ok_congr _ _ B i (bit_clear_const_table_eq B i) hc⟩,
    ⟨locality_ok_congr _ _ B i
        ((bit_set_static_table_eq B i).trans (bit_set_const_table_eq B i)) hs,
      locality_ok_congr _ _ B i
        ((bit_clear_static_table_eq B i).trans (bit_clear_const_table_eq B i)) hc⟩⟩

/-- Witness for C3 at the bitmap `[170, 7]` and index 9. -/
theorem mutation_locality_witness :
    (∀ x ∈ ([170, 7] : List Nat), x < 256) ∧ 9 < 8 * ([170, 7] : List Nat).length ∧
      ((locality_ok bit_set_naive [170, 7] 9 ∧ locality_ok bit_clear_naive [170, 7] 9) ∧
      (locality_ok bit_set_const_table [170, 7] 9 ∧
        locality_ok bit_clear_const_table [170, 7] 9) ∧
      (locality_ok bit_set_static_table [170, 7] 9 ∧
        locality_ok bit_clear_static_table [170, 7] 9)) :=
  ⟨by decide, by decide, mutation_locality [170, 7] 9 (by decide) (by decide)⟩

/-- Claim C4: in every variant, testing bit `i` right after setting bit `i`
returns `true`, and testing bit `i` right after clearing bit `i` returns
`false`. -/
theorem set_clear_then_test (B : List Nat) (i : Nat) (h : i < 8 * B.length) :
    ((bit_set_naive B i).bind (fun B2 => bit_test_naive B2 i) = some true ∧
      (bit_clear_naive B i).bind (fun B2 => bit_test_naive B2 i) = some false) ∧
    ((bit_set_const_table B i).bind (fun B2 => bit_test_const_table B2 i) = some true ∧
      (bit_clear_const_table B i).bind (fun B2 => bit_test_const_table B2 i) = some false) ∧
    ((bit_set_static_table B i).bind (fun B2 => bit_test_static_table B2 i) = some true ∧
      (bit_clear_static_table B i).bind (fun B2 => bit_test_static_table B2 i) = some false) := by
  obtain ⟨b, hb⟩ := exists_byte B i h
  have hlt : i / 8 < B.length := (div8_lt_iff i B.length).mpr h
  have hset : (bit_set_naive B i).bind (fun B2 => bit_test_naive B2 i) = some true := by
    rw [bit_set_naive_eq B i b hb, Option.some_bind,
      bit_test_naive_eq _ i _ (List.getElem?_set_self hlt), and_two_pow_bne_zero,
      testBit_or_shift_self]
  have hclear : (bit_clear_naive B i).bind (fun B2 => bit_test_naive B2 i) = some false := by
    rw [bit_clear_naive_eq B i b hb, Option.some_bind,
      bit_test_naive_eq _ i _ (List.getElem?_set_self hlt), and_two_pow_bne_zero,
      testBit_clear_self b (i % 8) (mod8_lt i)]
  refine ⟨⟨hset, hclear⟩, ?_, ?_⟩ <;>
    (simp only [bit_test_const_table_eq, bit_set_const_table_eq, bit_clear_const_table_eq,
      bit_test_static_table_eq, bit_set_static_table_eq, bit_clear_static_table_eq];
      exact ⟨hset, hclear⟩)

/-- Witness for C4 at the bitmap `[170, 7]` and index 9. -/
theorem set_clear_then_test_witness :
    9 < 8 * ([170, 7] : List Nat).length ∧
      (((bit_set_naive [170, 7] 9).bind (fun B2 => bit_test_naive B2 9) = some true ∧
        (bit_clear_naive [170, 7] 9).bind (fun B2 => bit_test_naive B2 9) = some false) ∧
      ((bit_set_const_table [170, 7] 9).bind
          (fun B2 => bit_test_const_table B2 9) = some true ∧
        (bit_clear_const_table [170, 7] 9).bind
          (fun B2 => bit_test_const_table B2 9) = some false) ∧
      ((bit_set_static_table [170, 7] 9).bind
          (fun B2 => bit_test_static_table B2 9) = some true ∧
        (bit_clear_static_table [170, 7] 9).bind
          (fun B2 => bit_test_static_table B2 9) = some false)) :=
  ⟨by decide, set_clear_then_test [170, 7] 9 (by decide)⟩

/-- Claim C5: in every variant, `bit_set` and `bit_clear` are idempotent:
applying the same operation twice at the same index gives the same buffer as
applying it once. -/
theorem set_clear_idempotent (B : List Nat) (i : Nat) (h : i < 8 * B.length) :
    ((bit_set_naive B i).bind (fun B2 => bit_set_naive B2 i) = bit_set_naive B i ∧
      (bit_clear_naive B i).bind (fun B2 => bit_clear_naive B2 i) = bit_clear_naive B i) ∧
    ((bit_set_const_table B i).bind
        (fun B2 => bit_set_const_table B2 i) = bit_set_const_table B i ∧
      (bit_clear_const_table B i).bind
        (fun B2 => bit_clear_const_table B2 i) = bit_clear_const_table B i) ∧
    ((bit_set_static_table B i).bind
        (fun B2 => bit_set_static_table B2 i) = bit_set_static_table B i ∧
      (bit_clear_static_table B i).bind
        (fun B2 => bit_clear_static_table B2 i) = bit_clear_static_table B i) := by
  obtain ⟨b, hb⟩ := exists_byte B i h
  have hlt : i / 8 < B.length := (div8_lt_iff i B.length).mpr h
  have hset : (bit_set_naive B i).bind (fun B2 => bit_set_naive B2 i) = bit_set_naive B i := by
    rw [bit_set_naive_eq B i b hb, Option.some_bind,
      bit_set_naive_eq _ i _ (List.getElem?_set_self hlt), List.set_set,
      Nat.or_assoc, Nat.or_self]
  have hclear :
      (bit_clear_naive B i).bind (fun B2 => bit_clear_naive B2 i) = bit_clear_naive B i := by
    rw [bit_clear_naive_eq B i b hb, Option.some_bind,
      bit_clear_naive_eq _ i _ (List.getElem?_set_self hlt), List.set_set,
      Nat.and_assoc, Nat.and_self]
  refine ⟨⟨hset, hclear⟩, ?_, ?_⟩ <;>
    (simp only [bit_set_const_table_eq, bit_clear_const_table_eq,
      bit_set_static_table_eq, bit_clear_static_table_eq];
      exact ⟨hset, hclear⟩)

/-- Witness for C5 at the bitmap `[170, 7]` and index 9. -/
theorem set_clear_idempotent_witness :
    9 < 8 * ([170, 7] : List Nat).length ∧
      (((bit_set_naive [170, 7] 9).bind
          (fun B2 => bit_set_naive B2 9) = bit_set_naive [170, 7] 9 ∧
        (bit_clear_naive [170, 7] 9).bind
          (fun B2 => bit_clear_naive B2 9) = bit_clear_naive [170, 7] 9) ∧
      ((bit_set_const_table [170, 7] 9).bind
          (fun B2 => bit_set_const_table B2 9) = bit_set_const_table [170, 7] 9 ∧
        (bit_clear_const_table [170, 7] 9).bind
          (fun B2 => bit_clear_const_table B2 9) = bit_clear_const_table [170, 7] 9) ∧
      ((bit_set_static_table [170, 7] 9).bind
          (fun B2 => bit_set_static_table B2 9) = bit_set_static_table [170, 7] 9 ∧
        (bit_clear_static_table [170, 7] 9).bind
          (fun B2 => bit_clear_static_table B2 9) = bit_clear_static_table [170, 7] 9)) :=
  ⟨by decide, set_clear_idempotent [170, 7] 9 (by decide)⟩

end BitmapBench
